import Mathlib

/-!
Verification development for the `ask-my-doc` Cloudflare worker
(`src/handlers.ts`).  The document-processing pipeline (`POST /process`),
the direct-context question route (`POST /:fileId/ask`) and the scoped
similarity route (`POST /:fileId/semantic`) are shallowly embedded below;
external backends (R2, D1, Vectorize, Workers AI, puppeteer) are oracle
functions collected in an `Env` record, and every observable side effect
is recorded in an effect trace.
-/

/-! ### ASCII case folding, modelling the JS regex `i` flag and
`String.prototype.toLowerCase` on the characters that matter here. -/

/-- Lower-case an ASCII letter; all other characters are unchanged. -/
def lc (c : Char) : Char :=
  match c with
  | 'A' => 'a' | 'B' => 'b' | 'C' => 'c' | 'D' => 'd' | 'E' => 'e'
  | 'F' => 'f' | 'G' => 'g' | 'H' => 'h' | 'I' => 'i' | 'J' => 'j'
  | 'K' => 'k' | 'L' => 'l' | 'M' => 'm' | 'N' => 'n' | 'O' => 'o'
  | 'P' => 'p' | 'Q' => 'q' | 'R' => 'r' | 'S' => 's' | 'T' => 't'
  | 'U' => 'u' | 'V' => 'v' | 'W' => 'w' | 'X' => 'x' | 'Y' => 'y'
  | 'Z' => 'z'
  | c => c

theorem lc_eq_lt {c : Char} (h : lc c = '<') : c = '<' := by
  unfold lc at h
  split at h <;> simp_all

theorem lc_eq_gt {c : Char} (h : lc c = '>') : c = '>' := by
  unfold lc at h
  split at h <;> simp_all

/-! ### Matching a fixed pattern case-insensitively.

`ciPref p s` holds when the (pre-lowercased) literal `p` matches at the
front of `s` under the regex `i` flag; `ciOcc p s` when it matches at some
position of `s`. -/

/-- Case-insensitive literal match at the front of `s`. -/
def ciPref : List Char → List Char → Bool
  | [], _ => true
  | _ :: _, [] => false
  | a :: p, c :: s => a == lc c && ciPref p s

/-- Case-insensitive literal match at some position of `s`. -/
def ciOcc (p : List Char) : List Char → Bool
  | [] => ciPref p []
  | c :: s => ciPref p (c :: s) || ciOcc p s

/-! ### The three regex replaces of `app.post('/process')`:

`html.replace(/<script[^>]*>[\s\S]*?<\/script>/gi, ' ')
     .replace(/<style[^>]*>[\s\S]*?<\/style>/gi, ' ')
     .replace(/<[^>]+>/g, ' ')` -/

/-- `[^>]*>`: skip to and over the first `>`, failing if there is none. -/
def skipAttrs : List Char → Option (List Char)
  | [] => none
  | c :: cs => if c = '>' then some cs else skipAttrs cs

/-- `[\s\S]*?` followed by the literal close tag, case-insensitively: the
lazy quantifier stops at the first occurrence of the close tag, and the
whole match extends just past it. -/
def findClose (cl : List Char) : List Char → Option (List Char)
  | [] => none
  | c :: cs => if ciPref cl (c :: cs) then some ((c :: cs).drop cl.length) else findClose cl cs

/-- One attempted match of `<TAG[^>]*>[\s\S]*?</TAG>` at the current
position: `opN` is the literal `<TAG`, `cl` the literal `</TAG>`. -/
def tryMatchTag (opN cl : List Char) (s : List Char) : Option (List Char) :=
  if ciPref opN s then
    match skipAttrs (s.drop opN.length) with
    | some afterOp => findClose cl afterOp
    | none => none
  else none

theorem skipAttrs_length {s r : List Char} (h : skipAttrs s = some r) :
    r.length < s.length := by
  induction s with
  | nil => simp [skipAttrs] at h
  | cons c cs ih =>
    simp only [skipAttrs] at h
    split at h
    · cases h; simp
    · exact Nat.lt_trans (ih h) (by simp)

theorem findClose_length {cl s r : List Char} (h : findClose cl s = some r) :
    r.length ≤ s.length := by
  induction s with
  | nil => simp [findClose] at h
  | cons c cs ih =>
    simp only [findClose] at h
    split at h
    · cases h; simp
    · exact Nat.le_trans (ih h) (by simp)

theorem tryMatchTag_length {opN cl s r : List Char}
    (h : tryMatchTag opN cl s = some r) : r.length < s.length := by
  unfold tryMatchTag at h
  split at h
  · cases hsk : skipAttrs (s.drop opN.length) with
    | none => rw [hsk] at h; cases h
    | some afterOp =>
      rw [hsk] at h
      have h1 : afterOp.length < (s.drop opN.length).length := skipAttrs_length hsk
      have h2 : r.length ≤ afterOp.length := findClose_length h
      have h3 : (s.drop opN.length).length ≤ s.length := by
        simp [List.length_drop]
      omega
  · cases h

/-- Global replace of a script/style block pattern by a single space,
mirroring the leftmost scan of a JS global regex replace. -/
def replaceTagBlocks (opN cl : List Char) (s : List Char) : List Char :=
  match s with
  | [] => []
  | c :: cs =>
    match h : tryMatchTag opN cl (c :: cs) with
    | some rest => ' ' :: replaceTagBlocks opN cl rest
    | none => c :: replaceTagBlocks opN cl cs
termination_by s.length
decreasing_by
  · exact tryMatchTag_length h
  · simp

/-- Scan for the `>` closing a generic tag. -/
def afterGt : List Char → Option (List Char)
  | [] => none
  | d :: ds => if d = '>' then some ds else afterGt ds

/-- `[^>]+>` after a `<`: at least one non-`>` character, then `>`. -/
def tagEnd : List Char → Option (List Char)
  | [] => none
  | c :: cs => if c = '>' then none else afterGt cs

theorem afterGt_length {s r : List Char} (h : afterGt s = some r) :
    r.length < s.length := by
  induction s with
  | nil => simp [afterGt] at h
  | cons d ds ih =>
    simp only [afterGt] at h
    split at h
    · cases h; simp
    · exact Nat.lt_trans (ih h) (by simp)

theorem tagEnd_length {s r : List Char} (h : tagEnd s = some r) :
    r.length < s.length := by
  cases s with
  | nil => simp [tagEnd] at h
  | cons c cs =>
    simp only [tagEnd] at h
    split at h
    · cases h
    · exact Nat.lt_trans (afterGt_length h) (by simp)

/-- Global replace of `/<[^>]+>/g` by a single space. -/
def stripTags (s : List Char) : List Char :=
  match s with
  | [] => []
  | c :: cs =>
    if c = '<' then
      match h : tagEnd cs with
      | some rest => ' ' :: stripTags rest
      | none => c :: stripTags cs
    else c :: stripTags cs
termination_by s.length
decreasing_by
  · exact Nat.lt_trans (tagEnd_length h) (by simp)
  · simp
  · simp

/-- The literal `<script` of the first regex (lower-case image). -/
def scriptOpenN : List Char := "<script".toList

/-- The literal `</script>` of the first regex (lower-case image). -/
def scriptCloseN : List Char := "</script>".toList

/-- The literal `<style` of the second regex (lower-case image). -/
def styleOpenN : List Char := "<style".toList

/-- The literal `</style>` of the second regex (lower-case image). -/
def styleCloseN : List Char := "</style>".toList

/-- The three chained replaces of the `/process` markup branch, on
character lists: script blocks first, then style blocks, then every
remaining tag. -/
def stripHtmlL (s : List Char) : List Char :=
  stripTags (replaceTagBlocks styleOpenN styleCloseN
    (replaceTagBlocks scriptOpenN scriptCloseN s))

/-- `String` version used by the `/process` handler model. -/
def stripHtml (s : String) : String :=
  String.mk (stripHtmlL s.data)

/-! ### `atob`: WHATWG forgiving-base64 decoding, used by the `local`
input branch (`Uint8Array.from(atob(input.content), ch => ch.charCodeAt(0))`).
A malformed payload throws `InvalidCharacterError`. -/

/-- ASCII whitespace removed before base64 decoding. -/
def isB64Ws (c : Char) : Bool :=
  c = ' ' || c = '\t' || c = '\n' || c = '\x0d' || c = '\x0c'

/-- Value of one base64 alphabet character. -/
def b64Index (c : Char) : Option Nat :=
  if 'A' ≤ c ∧ c ≤ 'Z' then some (c.toNat - 65)
  else if 'a' ≤ c ∧ c ≤ 'z' then some (c.toNat - 97 + 26)
  else if '0' ≤ c ∧ c ≤ '9' then some (c.toNat - 48 + 52)
  else if c = '+' then some 62
  else if c = '/' then some 63
  else none

/-- Strip one or two trailing `=` padding characters. -/
def dropPadding (cs : List Char) : List Char :=
  match cs.reverse with
  | '=' :: '=' :: rest => rest.reverse
  | '=' :: rest => rest.reverse
  | _ => cs

/-- Turn a list of 6-bit values into bytes (4 values to 3 bytes, with the
standard truncated final group). -/
def b64Group : List Nat → List Nat
  | a :: b :: c :: d :: rest =>
    (a * 4 + b / 16) :: ((b % 16) * 16 + c / 4) :: ((c % 4) * 64 + d) :: b64Group rest
  | [a, b] => [a * 4 + b / 16]
  | [a, b, c] => [a * 4 + b / 16, (b % 16) * 16 + c / 4]
  | _ => []

/-- `atob`: returns the decoded byte list, or throws
`InvalidCharacterError` on malformed input. -/
def atob (s : String) : Except String (List Nat) :=
  let cs := s.data.filter (fun c => !isB64Ws c)
  let cs := if cs.length % 4 = 0 then dropPadding cs else cs
  if cs.length % 4 = 1 then Except.error "InvalidCharacterError"
  else
    match cs.mapM b64Index with
    | none => Except.error "InvalidCharacterError"
    | some vals => Except.ok (b64Group vals)

instance {ε α : Type} [DecidableEq ε] [DecidableEq α] : DecidableEq (Except ε α) := fun a b =>
  match a, b with
  | .error e, .error f =>
    if h : e = f then isTrue (h ▸ rfl)
    else isFalse (fun hh => h (by cases hh; rfl))
  | .error _, .ok _ => isFalse (fun hh => Except.noConfusion hh)
  | .ok _, .error _ => isFalse (fun hh => Except.noConfusion hh)
  | .ok a, .ok b =>
    if h : a = b then isTrue (h ▸ rfl)
    else isFalse (fun hh => h (by cases hh; rfl))

/-! ### `JSON.stringify` on the values the handler serializes. -/

/-- One hex digit, lower-case. -/
def hexDigit (n : Nat) : Char :=
  if n < 10 then Char.ofNat (48 + n) else Char.ofNat (97 + (n - 10))

/-- Four-digit hex rendering used by `\uXXXX` escapes. -/
def hex4 (n : Nat) : String :=
  String.mk [hexDigit (n / 4096 % 16), hexDigit (n / 256 % 16),
             hexDigit (n / 16 % 16), hexDigit (n % 16)]

/-- `JSON.stringify` escaping of one string character. -/
def jsonEscapeChar (c : Char) : String :=
  if c = '"' then "\\\""
  else if c = '\\' then "\\\\"
  else if c = '\x08' then "\\b"
  else if c = '\t' then "\\t"
  else if c = '\n' then "\\n"
  else if c = '\x0c' then "\\f"
  else if c = '\x0d' then "\\r"
  else if c.toNat < 32 then "\\u" ++ hex4 c.toNat
  else String.mk [c]

/-- `JSON.stringify` of a string value. -/
def jsonQuote (s : String) : String :=
  "\"" ++ String.join (s.data.map jsonEscapeChar) ++ "\""

/-- `JSON.stringify({ text })`: the single-field object the `json`
RAG format produces. -/
def stringifyTextObj (t : String) : String :=
  "\x7b\"text\":" ++ jsonQuote t ++ "\x7d"

/-- `JSON.stringify` of a numeric vector (`result.embedding`). -/
def stringifyVec (v : List Int) : String :=
  "[" ++ String.intercalate "," (v.map toString) ++ "]"

/-! ### Small JS string helpers used by the handler. -/

/-- `text.slice(0, n)`. -/
def jsSlice (t : String) (n : Nat) : String := String.mk (t.data.take n)

/-- `filename.toLowerCase().endsWith('.pdf')`. -/
def endsWithPdf (filename : String) : Bool :=
  ".pdf".toList.isSuffixOf (filename.data.map lc)

/-- Substring test on character lists. -/
def hasSub (hay needle : List Char) : Bool :=
  needle.isPrefixOf hay ||
    match hay with
    | [] => false
    | _ :: t => hasSub t needle

/-- `haystack.includes(needle)` for strings. -/
def strIncludes (haystack needle : String) : Bool :=
  hasSub haystack.data needle.data

/-! ### Request/response data model of the three routes. -/

/-- The `input` discriminated union of `POST /process` (`input.type` is
`'r2' | 'local' | 'url'`; anything else is rejected with 400). -/
inductive Input
  | r2 (key : String)
  | loc (content : String) (filename : String)
  | url (u : String) (browser : Bool)
  | other

/-- The optional `process` directive. -/
structure Process where
  embeddings : Bool
  rag_format : Option String
  summary : Bool
deriving DecidableEq

/-- The optional `output` destination. -/
structure Output where
  key : Option String
deriving DecidableEq

/-- A `POST /process` request body. -/
structure ProcReq where
  input : Input
  process : Option Process
  output : Option Output

/-- An R2 object as the handler reads it (`httpMetadata?.contentType || ''`
collapsed into a plain string). -/
structure R2Obj where
  contentType : String
  bytes : List Nat

/-- A fetched HTTP response: content type header (or `''`), text body and
raw buffer. -/
structure Fetched where
  contentType : String
  body : String
  buf : List Nat

/-- A Vectorize match (only the id is consumed by the handler). -/
structure VMatch where
  id : String
deriving DecidableEq

/-- Observable side effects of one request, in order of occurrence. -/
inductive Effect
  | r2Get (key : String)
  | r2Put (key : String) (value : String)
  | browserLaunch
  | browserClose
  | fetchUrl (u : String)
  | aiEmbed (text : String)
  | aiGen (system : String) (user : String)
  | dbSelect (id : String)
  | vecQuery (fileId : String)
deriving DecidableEq

/-- Oracles for every external backend the worker talks to. Each
`Except`-valued field models a call that may reject/throw. -/
structure Env where
  r2Get : String → Option R2Obj
  fetchUrl : String → Except String Fetched
  browserGoto : String → Except String String
  pdfExtract : List Nat → Except String String
  textDecode : List Nat → String
  aiEmbed : String → Except String (List (List Int))
  aiGen : String → String → Except String String
  dbSelectText : String → Except String (List String)
  vecQuery : Option (List Int) → Nat → String → Except String (Option (List VMatch))

/-- The successful `/process` response body
(`{ extracted_text, embedding?, rag?, summary? }`); `none` models an
absent (`undefined`) field. -/
structure ProcResult where
  extracted_text : String
  embedding : Option (List Int) := none
  rag : Option String := none
  summary : Option String := none
deriving DecidableEq

/-- A `/process` HTTP response. -/
inductive ProcResp
  | ok (r : ProcResult)
  | err (status : Nat) (msg : String)
deriving DecidableEq

/-- Control flow inside the handler's `try` block: normal value, early
`return c.json(...)`, or a thrown error destined for the `catch`. -/
inductive Step (α : Type)
  | ok (a : α)
  | ret (r : ProcResp)
  | thrw (msg : String)
deriving DecidableEq

/-- JS truthiness of an optional string (`undefined` and `''` are falsy). -/
def truthyStr : Option String → Bool
  | none => false
  | some s => s ≠ ""

/-- System prompt of the summary branch. -/
def summarySystem : String :=
  "Summarize the following text concisely for a technical reader."

/-- System prompt of the `/ask` route. -/
def askSystem : String :=
  "Use the document context to answer accurately and concisely."

/-- Source acquisition and text extraction of `POST /process`
(lines 272-309 of `handlers.ts`): returns the extracted text, an early
response, or a thrown error, together with the effect trace. -/
def extractText (env : Env) : Input → Step String × List Effect
  | .r2 key =>
    match env.r2Get key with
    | none => (.ret (.err 404 "Object not found"), [.r2Get key])
    | some obj =>
      if strIncludes obj.contentType "application/pdf" then
        match env.pdfExtract obj.bytes with
        | .ok t => (.ok t, [.r2Get key])
        | .error e => (.thrw e, [.r2Get key])
      else (.ok (env.textDecode obj.bytes), [.r2Get key])
  | .loc content filename =>
    match atob content with
    | .error e => (.thrw e, [])
    | .ok bytes =>
      if endsWithPdf filename then
        match env.pdfExtract bytes with
        | .ok t => (.ok t, [])
        | .error e => (.thrw e, [])
      else (.ok (env.textDecode bytes), [])
  | .url u browser =>
    if browser then
      match env.browserGoto u with
      | .error e => (.thrw e, [.browserLaunch])
      | .ok html => (.ok (stripHtml html), [.browserLaunch, .browserClose])
    else
      match env.fetchUrl u with
      | .error e => (.thrw e, [.fetchUrl u])
      | .ok f =>
        if strIncludes f.contentType "application/pdf" then
          match env.pdfExtract f.buf with
          | .ok t => (.ok t, [.fetchUrl u])
          | .error e => (.thrw e, [.fetchUrl u])
        else (.ok (stripHtml f.body), [.fetchUrl u])
  | .other => (.ret (.err 400 "Invalid input.type"), [])

/-- The `rag` field computation (lines 317-324): only reached when
`process?.rag_format` is truthy; unknown formats leave it `undefined`. -/
def ragField (fmt : Option String) (text : String) : Option String :=
  if truthyStr fmt then
    if fmt = some "json" then some (stringifyTextObj text)
    else if fmt = some "markdown" then some ("# Extracted Text\n\n" ++ text)
    else none
  else none

/-- The embeddings branch (lines 313-316): one model call when the
directive asks for embeddings, `result.embedding = data[0]`. -/
def embPhase (env : Env) (proc : Option Process) (text : String) :
    Step (Option (List Int)) × List Effect :=
  if proc.elim false (·.embeddings) then
    match env.aiEmbed text with
    | .error e => (.thrw e, [.aiEmbed text])
    | .ok data => (.ok data.head?, [.aiEmbed text])
  else (.ok none, [])

/-- The artifact-generation phase (lines 313-333): embeddings, RAG
payload and summary, sequentially, inside the same `try` block. -/
def runArtifacts (env : Env) (proc : Option Process) (text : String) :
    Step ProcResult × List Effect :=
  match embPhase env proc text with
  | (.thrw e, effs) => (.thrw e, effs)
  | (.ret r, effs) => (.ret r, effs)
  | (.ok emb, effs1) =>
    let rag := ragField (proc.bind (·.rag_format)) text
    if proc.elim false (·.summary) then
      match env.aiGen summarySystem (jsSlice text 200000) with
      | .error e =>
        (.thrw e, effs1 ++ [.aiGen summarySystem (jsSlice text 200000)])
      | .ok s =>
        (.ok { extracted_text := text, embedding := emb, rag := rag, summary := some s },
         effs1 ++ [.aiGen summarySystem (jsSlice text 200000)])
    else
      (.ok { extracted_text := text, embedding := emb, rag := rag, summary := none }, effs1)

/-- `const prefix = output?.key || 'output'`. -/
def keyOrDefault (out : Option Output) : String :=
  match out.bind (·.key) with
  | some k => if k = "" then "output" else k
  | none => "output"

/-- The persistence step (lines 335-342): unconditional write of
`prefix.txt`, plus one write per truthy artifact field. -/
def persistArtifacts (proc : Option Process) (out : Option Output)
    (text : String) (r : ProcResult) : List Effect :=
  let pfx := keyOrDefault out
  [Effect.r2Put (pfx ++ ".txt") text]
  ++ (match r.rag with
      | some rag =>
        if rag ≠ "" then
          [Effect.r2Put
            (pfx ++ ".rag." ++ (if proc.bind (·.rag_format) = some "json" then "json" else "md"))
            rag]
        else []
      | none => [])
  ++ (match r.summary with
      | some s => if s ≠ "" then [Effect.r2Put (pfx ++ ".summary.txt") s] else []
      | none => [])
  ++ (match r.embedding with
      | some v => [Effect.r2Put (pfx ++ ".embedding.json") (stringifyVec v)]
      | none => [])

/-- `POST /process` end to end, with the `catch` turning any thrown
error into a 500 whose message is `err?.message || 'Failed to process
document'`. -/
def runProcess (env : Env) (req : ProcReq) : ProcResp × List Effect :=
  match extractText env req.input with
  | (.ret r, effs) => (r, effs)
  | (.thrw e, effs) =>
    (.err 500 (if e = "" then "Failed to process document" else e), effs)
  | (.ok text, effs1) =>
    match runArtifacts env req.process text with
    | (.thrw e, effs2) =>
      (.err 500 (if e = "" then "Failed to process document" else e), effs1 ++ effs2)
    | (.ret r, effs2) => (r, effs1 ++ effs2)
    | (.ok r, effs2) =>
      (.ok r, effs1 ++ effs2 ++ persistArtifacts req.process req.output text r)

/-- A parsed request body for `/ask` and `/semantic`: `none` is a JSON
parse failure (absorbed into `{}` by `.catch(() => ({}))`), and the inner
option is the `query` field. -/
structure BodyObj where
  query : Option String

/-- `body?.query` after the parse-failure fallback. -/
def queryOf (body : Option BodyObj) : Option String :=
  (body.getD ⟨none⟩).query

/-- The query if it is truthy, `none` otherwise. -/
def queryTruthy (body : Option BodyObj) : Option String :=
  match queryOf body with
  | some q => if q = "" then none else some q
  | none => none

/-- A `/ask` HTTP response. -/
inductive AskResp
  | ok (response : String)
  | err (status : Nat) (msg : String)
deriving DecidableEq

/-- `POST /:fileId/ask` (lines 383-407). -/
def runAsk (env : Env) (fileId : String) (body : Option BodyObj) :
    AskResp × List Effect :=
  match queryTruthy body with
  | none => (.err 400 "Query not provided", [])
  | some q =>
    match env.dbSelectText fileId with
    | .error _ => (.err 500 "Failed to process query", [.dbSelect fileId])
    | .ok [] => (.err 404 "Document not found", [.dbSelect fileId])
    | .ok (ctx :: _) =>
      let user := "Context:\n" ++ ctx ++ "\n\nQuestion: " ++ q
      match env.aiGen askSystem user with
      | .error _ =>
        (.err 500 "Failed to process query", [.dbSelect fileId, .aiGen askSystem user])
      | .ok resp => (.ok resp, [.dbSelect fileId, .aiGen askSystem user])

/-- One result row of `/semantic` (`{ text }`). -/
structure Chunk where
  text : String
deriving DecidableEq

/-- A `/semantic` HTTP response. -/
inductive SemResp
  | ok (chunks : List Chunk)
  | err (status : Nat) (msg : String)
deriving DecidableEq

/-- Per-match text resolution of `/semantic` (lines 422-429): each index
match becomes a row, an unresolvable id becoming the `"not found"`
sentinel; rows keep the order of the match list. -/
def resolveChunks (env : Env) : List VMatch → Except String (List Chunk) × List Effect
  | [] => (.ok [], [])
  | m :: ms =>
    match env.dbSelectText m.id with
    | .error e => (.error e, [.dbSelect m.id])
    | .ok rows =>
      match resolveChunks env ms with
      | (.error e, effs) => (.error e, .dbSelect m.id :: effs)
      | (.ok cs, effs) =>
        (.ok ({ text := rows.head?.getD "not found" } :: cs), .dbSelect m.id :: effs)

/-- `POST /:fileId/semantic` (lines 410-435). -/
def runSemantic (env : Env) (fileId : String) (body : Option BodyObj) :
    SemResp × List Effect :=
  match queryTruthy body with
  | none => (.err 400 "Query not provided", [])
  | some q =>
    match env.aiEmbed q with
    | .error _ => (.err 500 "Failed to perform semantic search", [.aiEmbed q])
    | .ok data =>
      match env.vecQuery data.head? 5 fileId with
      | .error _ =>
        (.err 500 "Failed to perform semantic search", [.aiEmbed q, .vecQuery fileId])
      | .ok simRes =>
        match resolveChunks env (simRes.getD []) with
        | (.error _, effs) =>
          (.err 500 "Failed to perform semantic search", .aiEmbed q :: .vecQuery fileId :: effs)
        | (.ok cs, effs) => (.ok cs, .aiEmbed q :: .vecQuery fileId :: effs)

/-! ### Lemmas about case-insensitive literal matching. -/

theorem ciPref_cons_iff {a c : Char} {p s : List Char} :
    ciPref (a :: p) (c :: s) = true ↔ a = lc c ∧ ciPref p s = true := by
  simp [ciPref, Bool.and_eq_true]

theorem ciPref_cons_false {a c : Char} {p s : List Char} (h : a ≠ lc c) :
    ciPref (a :: p) (c :: s) = false := by
  simp [ciPref, h]

theorem ciPref_length {p s : List Char} (h : ciPref p s = true) :
    p.length ≤ s.length := by
  induction p generalizing s with
  | nil => simp
  | cons a p ih =>
    cases s with
    | nil => simp [ciPref] at h
    | cons c s =>
      rcases ciPref_cons_iff.mp h with ⟨_, h2⟩
      simpa using ih h2

theorem ciPref_restrict {p x y : List Char} (h : ciPref p (x ++ y) = true)
    (hlen : p.length ≤ x.length) : ciPref p x = true := by
  induction p generalizing x with
  | nil => simp [ciPref]
  | cons a p ih =>
    cases x with
    | nil => simp at hlen
    | cons c x =>
      rw [List.cons_append] at h
      rcases ciPref_cons_iff.mp h with ⟨h1, h2⟩
      exact ciPref_cons_iff.mpr ⟨h1, ih h2 (by simpa using hlen)⟩

theorem ciPref_split {p x y : List Char} (h : ciPref p (x ++ y) = true) :
    ciPref (p.drop x.length) y = true := by
  induction x generalizing p with
  | nil => simpa using h
  | cons c x ih =>
    cases p with
    | nil => simp [ciPref]
    | cons a p =>
      rw [List.cons_append] at h
      rcases ciPref_cons_iff.mp h with ⟨_, h2⟩
      simpa using ih h2

theorem ciPref_take {p x y : List Char} (h : ciPref p (x ++ y) = true) :
    ciPref (p.take x.length) x = true := by
  induction x generalizing p with
  | nil => simp [ciPref]
  | cons c x ih =>
    cases p with
    | nil => simp [ciPref]
    | cons a p =>
      rw [List.cons_append] at h
      rcases ciPref_cons_iff.mp h with ⟨h1, h2⟩
      exact ciPref_cons_iff.mpr ⟨h1, ih h2⟩

theorem ciPref_of_map {m p z : List Char} (h : m.map lc = p) :
    ciPref p (m ++ z) = true := by
  induction m generalizing p with
  | nil => subst h; simp [ciPref]
  | cons c m ih =>
    subst h
    exact ciPref_cons_iff.mpr ⟨rfl, ih rfl⟩

theorem ciPref_eq_isPrefixOf (p s : List Char) :
    ciPref p s = p.isPrefixOf (s.map lc) := by
  induction p generalizing s with
  | nil => simp [ciPref, List.isPrefixOf]
  | cons a p ih =>
    cases s with
    | nil => simp [ciPref, List.isPrefixOf]
    | cons c s => simp [ciPref, List.isPrefixOf, ih]

theorem ciOcc_of_suffix {p x x1 x2 : List Char} (heq : x = x1 ++ x2)
    (h : ciPref p x2 = true) : ciOcc p x = true := by
  subst heq
  induction x1 with
  | nil =>
    cases x2 with
    | nil => simpa [ciOcc] using h
    | cons c s => simp [ciOcc, h]
  | cons c x1 ih => simp [ciOcc, ih]

theorem ciOcc_exists {p x : List Char} (h : ciOcc p x = true) :
    ∃ x1 x2, x = x1 ++ x2 ∧ ciPref p x2 = true := by
  induction x with
  | nil => exact ⟨[], [], rfl, by simpa [ciOcc] using h⟩
  | cons c s ih =>
    rw [ciOcc, Bool.or_eq_true] at h
    rcases h with h | h
    · exact ⟨[], c :: s, rfl, h⟩
    · rcases ih h with ⟨x1, x2, heq, hp⟩
      exact ⟨c :: x1, x2, by simp [heq], hp⟩

theorem ciOcc_false_of_no_lt {p x : List Char}
    (hp : p.head? = some '<') (ha : '<' ∉ x) : ciOcc p x = false := by
  cases p with
  | nil => simp at hp
  | cons a p' =>
    have ha' : a = '<' := by simpa using hp
    subst ha'
    cases hco : ciOcc ('<' :: p') x with
    | false => rfl
    | true =>
      exfalso
      rcases ciOcc_exists hco with ⟨x1, x2, heq, hpref⟩
      cases x2 with
      | nil => simp [ciPref] at hpref
      | cons c s =>
        rcases ciPref_cons_iff.mp hpref with ⟨h1, _⟩
        have hc : c = '<' := lc_eq_lt h1.symm
        subst hc
        exact absurd (heq ▸ List.mem_append_right x1 (List.mem_cons_self _ _)) ha

/-! ### "No match can start inside `x` when followed by `y`". -/

/-- No position of `x` (followed by the continuation `y`) starts a
case-insensitive match of the literal `p`. -/
def noStartIn (p x y : List Char) : Prop :=
  ∀ x1 x2, x = x1 ++ x2 → x2 ≠ [] → ciPref p (x2 ++ y) = false

theorem noStartIn_nil {p y : List Char} : noStartIn p [] y := by
  intro x1 x2 heq hne
  exact absurd (List.append_eq_nil.mp heq.symm).2 hne

theorem noStartIn_tail {p : List Char} {c : Char} {x y : List Char}
    (h : noStartIn p (c :: x) y) : noStartIn p x y := by
  intro x1 x2 heq hne
  exact h (c :: x1) x2 (by simp [heq]) hne

theorem noStartIn_cons_of {p : List Char} {c : Char} {x y : List Char}
    (hhead : ciPref p (c :: (x ++ y)) = false) (htail : noStartIn p x y) :
    noStartIn p (c :: x) y := by
  intro x1 x2 heq hne
  cases x1 with
  | nil =>
    simp only [List.nil_append] at heq
    subst heq
    simpa using hhead
  | cons d x1 =>
    rw [List.cons_append, List.cons.injEq] at heq
    exact htail x1 x2 heq.2 hne

theorem noStartIn_append {p u v y : List Char}
    (h1 : noStartIn p u (v ++ y)) (h2 : noStartIn p v y) :
    noStartIn p (u ++ v) y := by
  induction u with
  | nil => simpa using h2
  | cons c u ih =>
    rw [List.cons_append]
    refine noStartIn_cons_of ?_ (ih (noStartIn_tail h1))
    have := h1 [] (c :: u) rfl (by simp)
    simpa [List.append_assoc] using this

theorem noStartIn_of_occ {p x : List Char} {c : Char} {y : List Char}
    (hx : ciOcc p x = false)
    (hp : ∀ k, k < p.length → 1 ≤ k → (p.drop k).head? ≠ some (lc c)) :
    noStartIn p x (c :: y) := by
  intro x1 x2 heq hne
  cases hc : ciPref p (x2 ++ c :: y) with
  | false => rfl
  | true =>
    exfalso
    by_cases hlen : p.length ≤ x2.length
    · have h1 : ciPref p x2 = true := ciPref_restrict hc hlen
      have h2 : ciOcc p x = true := ciOcc_of_suffix heq h1
      rw [hx] at h2; cases h2
    · push_neg at hlen
      have h1 : ciPref (p.drop x2.length) (c :: y) = true := ciPref_split hc
      cases hdrop : p.drop x2.length with
      | nil =>
        have := congrArg List.length hdrop
        simp [List.length_drop] at this
        omega
      | cons a q =>
        rw [hdrop] at h1
        rcases ciPref_cons_iff.mp h1 with ⟨h2, _⟩
        have h3 : 1 ≤ x2.length := by
          cases x2 with
          | nil => exact absurd rfl hne
          | cons _ _ => simp
        exact hp x2.length hlen h3 (by rw [hdrop, h2]; rfl)

theorem noStartIn_of_take {p x y : List Char}
    (h : ∀ x1 x2, x = x1 ++ x2 → x2 ≠ [] → ciPref (p.take x2.length) x2 = false) :
    noStartIn p x y := by
  intro x1 x2 heq hne
  cases hc : ciPref p (x2 ++ y) with
  | false => rfl
  | true =>
    have h1 : ciPref (p.take x2.length) x2 = true := ciPref_take hc
    rw [h x1 x2 heq hne] at h1
    cases h1

/-- Decidable form of the `noStartIn_of_take` premise, evaluated on the
lower-case image of the segment. -/
def noPrefStartB (p M : List Char) : Bool :=
  M.tails.all (fun t => t.isEmpty || !((p.take t.length).isPrefixOf t))

theorem noStartIn_of_map {p x y M : List Char} (hM : x.map lc = M)
    (hB : noPrefStartB p M = true) : noStartIn p x y := by
  refine noStartIn_of_take ?_
  intro x1 x2 heq hne
  have hsuf : x2.map lc <:+ M := by
    rw [← hM, heq, List.map_append]
    exact ⟨x1.map lc, rfl⟩
  have hmem : x2.map lc ∈ M.tails := (List.mem_tails _ _).mpr hsuf
  have hall := List.all_eq_true.mp hB _ hmem
  rw [Bool.or_eq_true] at hall
  rcases hall with hall | hall
  · simp [List.isEmpty_iff] at hall
    exact absurd hall hne
  · rw [Bool.not_eq_true'] at hall
    rw [ciPref_eq_isPrefixOf]
    rwa [List.length_map] at hall

/-! ### Behaviour of the global-replace scans. -/

theorem replaceTagBlocks_nil {opN cl : List Char} :
    replaceTagBlocks opN cl [] = [] := by
  rw [replaceTagBlocks]

theorem replaceTagBlocks_cons_none {opN cl : List Char} {c : Char} {cs : List Char}
    (h : tryMatchTag opN cl (c :: cs) = none) :
    replaceTagBlocks opN cl (c :: cs) = c :: replaceTagBlocks opN cl cs := by
  rw [replaceTagBlocks]
  split <;> simp_all

theorem replaceTagBlocks_cons_some {opN cl : List Char} {c : Char} {cs rest : List Char}
    (h : tryMatchTag opN cl (c :: cs) = some rest) :
    replaceTagBlocks opN cl (c :: cs) = ' ' :: replaceTagBlocks opN cl rest := by
  rw [replaceTagBlocks]
  split <;> simp_all

theorem tryMatchTag_none_of_ciPref {opN cl s : List Char}
    (h : ciPref opN s = false) : tryMatchTag opN cl s = none := by
  simp [tryMatchTag, h]

theorem replaceTagBlocks_append {opN cl x y : List Char} (h : noStartIn opN x y) :
    replaceTagBlocks opN cl (x ++ y) = x ++ replaceTagBlocks opN cl y := by
  induction x with
  | nil => simp
  | cons c x ih =>
    have hfalse : ciPref opN (c :: (x ++ y)) = false := by
      have := h [] (c :: x) rfl (by simp)
      simpa using this
    rw [List.cons_append,
        replaceTagBlocks_cons_none (tryMatchTag_none_of_ciPref hfalse),
        ih (noStartIn_tail h)]
    rfl

theorem findClose_append {cl x y : List Char} (h : noStartIn cl x y) :
    findClose cl (x ++ y) = findClose cl y := by
  induction x with
  | nil => simp
  | cons c x ih =>
    have hfalse : ciPref cl (c :: (x ++ y)) = false := by
      have := h [] (c :: x) rfl (by simp)
      simpa using this
    rw [List.cons_append, findClose, if_neg (by simp [hfalse])]
    exact ih (noStartIn_tail h)

theorem findClose_at {cl ct post : List Char} (hct : ct.map lc = cl)
    (hne : ct ≠ []) : findClose cl (ct ++ post) = some post := by
  cases ct with
  | nil => exact absurd rfl hne
  | cons c ct' =>
    have hpref : ciPref cl ((c :: ct') ++ post) = true := ciPref_of_map hct
    rw [List.cons_append] at hpref ⊢
    rw [findClose, if_pos (by simp [hpref])]
    have hlen : cl.length = (c :: ct').length := by
      rw [← hct, List.length_map]
    rw [← List.cons_append, hlen, List.drop_left]

theorem skipAttrs_append {a r : List Char} (ha : '>' ∉ a) :
    skipAttrs (a ++ '>' :: r) = some r := by
  induction a with
  | nil => simp [skipAttrs]
  | cons c a ih =>
    have hc : c ≠ '>' := fun hc => ha (hc ▸ List.mem_cons_self _ _)
    rw [List.cons_append, skipAttrs, if_neg hc]
    exact ih (fun hm => ha (List.mem_cons_of_mem _ hm))

theorem tryMatchTag_block {opN cl ot a rest post : List Char}
    (hot : ot.map lc = opN) (ha : '>' ∉ a)
    (hfc : findClose cl rest = some post) :
    tryMatchTag opN cl (ot ++ (a ++ '>' :: rest)) = some post := by
  have hpref : ciPref opN (ot ++ (a ++ '>' :: rest)) = true := ciPref_of_map hot
  have hlen : opN.length = ot.length := by rw [← hot, List.length_map]
  rw [tryMatchTag, if_pos hpref, hlen, List.drop_left, skipAttrs_append ha]
  exact hfc

/-! ### One full pass over a well-formed TAG block. -/

theorem map_lc_head {m p : List Char} {c : Char} {m' : List Char}
    (hm : m = c :: m') (hmap : m.map lc = p) (hp : p.head? = some '<') :
    lc c = '<' := by
  subst hm
  rw [← hmap] at hp
  simpa using hp

theorem replaceTagBlocks_block {opN cl pre ot a b ct post : List Char}
    (hop0 : opN.head? = some '<')
    (hcl0 : cl.head? = some '<')
    (hopInt : ∀ k, k < opN.length → 1 ≤ k → (opN.drop k).head? ≠ some '<')
    (hclInt : ∀ k, k < cl.length → 1 ≤ k → (cl.drop k).head? ≠ some '<')
    (hot : ot.map lc = opN) (hct : ct.map lc = cl)
    (ha : '>' ∉ a)
    (hpre : ciOcc opN pre = false)
    (hb : ciOcc cl b = false) :
    replaceTagBlocks opN cl (pre ++ (ot ++ (a ++ '>' :: (b ++ (ct ++ post)))))
      = pre ++ ' ' :: replaceTagBlocks opN cl post := by
  cases ot with
  | nil =>
    exfalso
    rw [← hot] at hop0
    simp at hop0
  | cons c0 ot' =>
    cases ct with
    | nil =>
      exfalso
      rw [← hct] at hcl0
      simp at hcl0
    | cons c1 ct' =>
      have hlc0 : lc c0 = '<' := map_lc_head rfl hot hop0
      have hlc1 : lc c1 = '<' := map_lc_head rfl hct hcl0
      have hfc : findClose cl (b ++ ((c1 :: ct') ++ post)) = some post := by
        have hnsb : noStartIn cl b (c1 :: (ct' ++ post)) :=
          noStartIn_of_occ hb (by rw [hlc1]; exact hclInt)
        rw [List.cons_append, findClose_append hnsb, ← List.cons_append,
            findClose_at hct (by simp)]
      have htm : tryMatchTag opN cl ((c0 :: ot') ++ (a ++ '>' :: (b ++ ((c1 :: ct') ++ post))))
          = some post := tryMatchTag_block hot ha hfc
      have hnspre : noStartIn opN pre
          ((c0 :: ot') ++ (a ++ '>' :: (b ++ ((c1 :: ct') ++ post)))) := by
        rw [List.cons_append]
        exact noStartIn_of_occ hpre (by rw [hlc0]; exact hopInt)
      rw [replaceTagBlocks_append hnspre]
      rw [List.cons_append] at htm
      rw [List.cons_append, replaceTagBlocks_cons_some htm]

theorem replaceTagBlocks_pre_space {opN cl pre post : List Char}
    (hop0 : opN.head? = some '<')
    (hopSp : ∀ k, k < opN.length → 1 ≤ k → (opN.drop k).head? ≠ some ' ')
    (hpre : ciOcc opN pre = false) :
    replaceTagBlocks opN cl (pre ++ ' ' :: post)
      = pre ++ ' ' :: replaceTagBlocks opN cl post := by
  have hns : noStartIn opN pre (' ' :: post) :=
    noStartIn_of_occ hpre (by intro k h1 h2; exact hopSp k h1 h2)
  rw [replaceTagBlocks_append hns]
  cases opN with
  | nil => simp at hop0
  | cons a0 opN' =>
    have ha0 : a0 = '<' := by simpa using hop0
    have hcp : ciPref (a0 :: opN') (' ' :: post) = false :=
      ciPref_cons_false (by rw [ha0]; decide)
    rw [replaceTagBlocks_cons_none (tryMatchTag_none_of_ciPref hcp)]

/-! ### Well-formed script/style blocks vanish entirely under the
three-pass strip. -/

theorem stripHtmlL_script_block {pre ot a b ct post : List Char}
    (hot : ot.map lc = scriptOpenN) (hct : ct.map lc = scriptCloseN)
    (ha : '>' ∉ a)
    (hpre : ciOcc scriptOpenN pre = false)
    (hb : ciOcc scriptCloseN b = false) :
    stripHtmlL (pre ++ (ot ++ (a ++ '>' :: (b ++ (ct ++ post)))))
      = stripHtmlL (pre ++ ' ' :: post) := by
  unfold stripHtmlL
  rw [replaceTagBlocks_block (by decide) (by decide) (by decide) (by decide)
      hot hct ha hpre hb,
      replaceTagBlocks_pre_space (by decide) (by decide) hpre]

theorem stripHtmlL_style_block {pre ot a b ct post : List Char}
    (hot : ot.map lc = styleOpenN) (hct : ct.map lc = styleCloseN)
    (haGt : '>' ∉ a) (haLt : '<' ∉ a)
    (hpreSc : ciOcc scriptOpenN pre = false)
    (hpreSt : ciOcc styleOpenN pre = false)
    (hbSc : ciOcc scriptOpenN b = false)
    (hbSt : ciOcc styleCloseN b = false) :
    stripHtmlL (pre ++ (ot ++ (a ++ '>' :: (b ++ (ct ++ post)))))
      = stripHtmlL (pre ++ ' ' :: post) := by
  cases ot with
  | nil => exact absurd (congrArg List.length hot) (by simp [styleOpenN])
  | cons c0 ot' =>
  cases ct with
  | nil => exact absurd (congrArg List.length hct) (by simp [styleCloseN])
  | cons c1 ct' =>
  have hlc0 : lc c0 = '<' := map_lc_head rfl hot (by decide)
  have hlc1 : lc c1 = '<' := map_lc_head rfl hct (by decide)
  -- the first (script) pass leaves the whole block region untouched
  have h4a : noStartIn scriptOpenN b ((c1 :: ct') ++ post) :=
    noStartIn_of_occ hbSc (by rw [hlc1]; decide)
  have h4b : noStartIn scriptOpenN (c1 :: ct') post :=
    noStartIn_of_map hct (by decide)
  have h3b : noStartIn scriptOpenN ('>' :: (b ++ (c1 :: ct'))) post := by
    refine noStartIn_cons_of ?_ (noStartIn_append h4a h4b)
    exact ciPref_cons_false (by decide)
  have h3a : noStartIn scriptOpenN a (('>' :: (b ++ (c1 :: ct'))) ++ post) := by
    have hocc : ciOcc scriptOpenN a = false :=
      ciOcc_false_of_no_lt (by decide) haLt
    exact noStartIn_of_occ hocc (by decide)
  have h2b : noStartIn scriptOpenN (a ++ '>' :: (b ++ (c1 :: ct'))) post :=
    noStartIn_append h3a h3b
  have h2a : noStartIn scriptOpenN (c0 :: ot')
      ((a ++ '>' :: (b ++ (c1 :: ct'))) ++ post) :=
    noStartIn_of_map hot (by decide)
  have h2 : noStartIn scriptOpenN ((c0 :: ot') ++ (a ++ '>' :: (b ++ (c1 :: ct')))) post :=
    noStartIn_append h2a h2b
  have h1 : noStartIn scriptOpenN pre
      (((c0 :: ot') ++ (a ++ '>' :: (b ++ (c1 :: ct')))) ++ post) :=
    noStartIn_of_occ hpreSc (by rw [hlc0]; decide)
  have hX : noStartIn scriptOpenN
      (pre ++ ((c0 :: ot') ++ (a ++ '>' :: (b ++ (c1 :: ct'))))) post :=
    noStartIn_append h1 h2
  have hE : pre ++ ((c0 :: ot') ++ (a ++ '>' :: (b ++ ((c1 :: ct') ++ post))))
      = (pre ++ ((c0 :: ot') ++ (a ++ '>' :: (b ++ (c1 :: ct'))))) ++ post := by
    simp [List.append_assoc]
  unfold stripHtmlL
  rw [hE, replaceTagBlocks_append hX,
      replaceTagBlocks_pre_space (by decide) (by decide) hpreSc]
  have hE2 : (pre ++ ((c0 :: ot') ++ (a ++ '>' :: (b ++ (c1 :: ct')))))
        ++ replaceTagBlocks scriptOpenN scriptCloseN post
      = pre ++ ((c0 :: ot') ++ (a ++ '>' :: (b ++
          ((c1 :: ct') ++ replaceTagBlocks scriptOpenN scriptCloseN post)))) := by
    simp [List.append_assoc]
  rw [hE2,
      replaceTagBlocks_block (by decide) (by decide) (by decide) (by decide)
        hot hct haGt hpreSt hbSt,
      replaceTagBlocks_pre_space (by decide) (by decide) hpreSt]

/-- **C1.** For every HTML/markup input processed by the `/process` text
extraction, the contents of well-formed `<script>` and `<style>` blocks
never appear in the extracted text: the whole block (open tag, body, close
tag) is replaced by a single space before generic tag removal, for any
case variant of the tag names, any attribute list free of angle brackets,
and any body (including bodies containing angle brackets or spanning
several lines) that does not itself contain the corresponding close-tag
marker (nor, for a style body, an opening `<script` that would make the
enclosing markup ill-formed), in any context whose preceding text does not
open another script/style block. -/
theorem C1_script_style_never_leak :
    (∀ pre ot attrs body ct post : String,
      ot.data.map lc = scriptOpenN →
      ct.data.map lc = scriptCloseN →
      '>' ∉ attrs.data →
      ciOcc scriptOpenN pre.data = false →
      ciOcc scriptCloseN body.data = false →
      stripHtml (pre ++ ot ++ attrs ++ ">" ++ body ++ ct ++ post)
        = stripHtml (pre ++ " " ++ post))
    ∧
    (∀ pre ot attrs body ct post : String,
      ot.data.map lc = styleOpenN →
      ct.data.map lc = styleCloseN →
      '>' ∉ attrs.data →
      '<' ∉ attrs.data →
      ciOcc scriptOpenN pre.data = false →
      ciOcc styleOpenN pre.data = false →
      ciOcc scriptOpenN body.data = false →
      ciOcc styleCloseN body.data = false →
      stripHtml (pre ++ ot ++ attrs ++ ">" ++ body ++ ct ++ post)
        = stripHtml (pre ++ " " ++ post)) := by
  have hgt : (">" : String).data = ['>'] := rfl
  have hsp : (" " : String).data = [' '] := rfl
  constructor
  · intro pre ot attrs body ct post hot hct ha hpre hb
    unfold stripHtml
    have hdata : (pre ++ ot ++ attrs ++ ">" ++ body ++ ct ++ post).data
        = pre.data ++ (ot.data ++ (attrs.data ++ '>' ::
            (body.data ++ (ct.data ++ post.data)))) := by
      simp [String.data_append, hgt, List.append_assoc]
    have hdata2 : (pre ++ " " ++ post).data = pre.data ++ ' ' :: post.data := by
      simp [String.data_append, hsp, List.append_assoc]
    rw [hdata, hdata2, stripHtmlL_script_block hot hct ha hpre hb]
  · intro pre ot attrs body ct post hot hct haGt haLt hpreSc hpreSt hbSc hbSt
    unfold stripHtml
    have hdata : (pre ++ ot ++ attrs ++ ">" ++ body ++ ct ++ post).data
        = pre.data ++ (ot.data ++ (attrs.data ++ '>' ::
            (body.data ++ (ct.data ++ post.data)))) := by
      simp [String.data_append, hgt, List.append_assoc]
    have hdata2 : (pre ++ " " ++ post).data = pre.data ++ ' ' :: post.data := by
      simp [String.data_append, hsp, List.append_assoc]
    rw [hdata, hdata2, stripHtmlL_style_block hot hct haGt haLt hpreSc hpreSt hbSc hbSt]

/-- Closed witness for C1: a mixed-case script block with an attribute
list and a multi-line body containing `<` is erased entirely. -/
theorem C1_script_style_never_leak_witness :
    ("<SCRipt" : String).data.map lc = scriptOpenN ∧
    ("</ScRiPt>" : String).data.map lc = scriptCloseN ∧
    '>' ∉ (" async" : String).data ∧
    ciOcc scriptOpenN ("<p>Hello " : String).data = false ∧
    ciOcc scriptCloseN ("\nvar x = 1 < 2;\n" : String).data = false ∧
    stripHtml ("<p>Hello " ++ "<SCRipt" ++ " async" ++ ">" ++
        "\nvar x = 1 < 2;\n" ++ "</ScRiPt>" ++ "World</p>")
      = stripHtml ("<p>Hello " ++ " " ++ "World</p>") :=
  ⟨by decide, by decide, by decide, by decide, by decide,
   C1_script_style_never_leak.1 "<p>Hello " "<SCRipt" " async"
     "\nvar x = 1 < 2;\n" "</ScRiPt>" "World</p>"
     (by decide) (by decide) (by decide) (by decide) (by decide)⟩

/-! ### Concrete oracle environments used by closed witnesses. -/

/-- A small deterministic environment: the browser times out on
navigation, the embedding model returns one vector, generation succeeds,
the byte string `[104, 105]` decodes to `"hi"`. -/
def envBase : Env where
  r2Get := fun _ => none
  fetchUrl := fun _ => Except.error "network failure"
  browserGoto := fun _ => Except.error "Navigation timeout of 30000 ms exceeded"
  pdfExtract := fun _ => Except.error "bad pdf"
  textDecode := fun bs => if bs = [104, 105] then "hi" else ""
  aiEmbed := fun _ => Except.ok [[1, 2]]
  aiGen := fun _ _ => Except.ok "a summary"
  dbSelectText := fun _ => Except.ok []
  vecQuery := fun _ _ _ => Except.ok (some [])

/-- `envBase` with a failing summary model. -/
def envSummaryFail : Env :=
  { envBase with aiGen := fun _ _ => Except.error "summary model timeout" }

/-- `envBase` with a summary model that returns the empty string. -/
def envSummaryEmpty : Env :=
  { envBase with aiGen := fun _ _ => Except.ok "" }

/-- `envBase` with two index matches, only the first resolvable. -/
def envTwoMatches : Env :=
  { envBase with
    vecQuery := fun _ _ _ => Except.ok (some [⟨"d1"⟩, ⟨"gone"⟩])
    dbSelectText := fun i => if i = "d1" then Except.ok ["alpha"] else Except.ok [] }

/-- The R2 writes contained in an effect trace. -/
def r2PutsOf (effs : List Effect) : List Effect :=
  effs.filter fun e =>
    match e with
    | .r2Put _ _ => true
    | _ => false

/-! ### C2: the artifact branches are *not* failure-isolated. -/

/-- Counterexample to C2: the embedding model succeeds (first conjunct),
the later summary call fails, and the response is a bare 500 error that
reports no branch at all — the computed embedding is discarded. -/
theorem C2_counterexample :
    envSummaryFail.aiEmbed "hi" = Except.ok [[1, 2]] ∧
    runProcess envSummaryFail
        ⟨Input.loc "aGk=" "a.txt", some ⟨true, none, true⟩, none⟩
      = (ProcResp.err 500 "summary model timeout",
         [Effect.aiEmbed "hi", Effect.aiGen summarySystem "hi"]) :=
  ⟨rfl, by decide⟩

/-- **C2 (amended).** The embedding, RAG and summary branches run
sequentially inside one `try` block: when the summary model call fails
after the embedding branch has already succeeded, the whole request is
aborted by the shared `catch` and answered with a single 500 error
carrying the failure message; no already-computed branch (in particular
not the embedding) is reported. -/
theorem C2_branch_failure_aborts (env : Env) (p : Process) (e : String)
    (d : List (List Int)) (content filename : String) (out : Option Output)
    (bs : List Nat)
    (hemb : p.embeddings = true) (hsum : p.summary = true)
    (hok : env.aiEmbed (env.textDecode bs) = Except.ok d)
    (hfail : env.aiGen summarySystem (jsSlice (env.textDecode bs) 200000)
      = Except.error e)
    (hb : atob content = Except.ok bs)
    (hpdf : endsWithPdf filename = false)
    (hne : e ≠ "") :
    runProcess env ⟨Input.loc content filename, some p, out⟩
      = (ProcResp.err 500 e,
         [Effect.aiEmbed (env.textDecode bs),
          Effect.aiGen summarySystem (jsSlice (env.textDecode bs) 200000)]) := by
  simp only [runProcess, extractText, hb, hpdf, Bool.false_eq_true, if_false,
    runArtifacts, embPhase, Option.elim, hemb, hsum, if_true, hok, hfail, ragField]
  simp [hne]

/-- Closed witness for the amended C2. -/
theorem C2_branch_failure_aborts_witness :
    (⟨true, none, true⟩ : Process).embeddings = true ∧
    (⟨true, none, true⟩ : Process).summary = true ∧
    envSummaryFail.aiEmbed (envSummaryFail.textDecode [104, 105]) = Except.ok [[1, 2]] ∧
    envSummaryFail.aiGen summarySystem (jsSlice (envSummaryFail.textDecode [104, 105]) 200000)
      = Except.error "summary model timeout" ∧
    atob "aGk=" = Except.ok [104, 105] ∧
    endsWithPdf "a.txt" = false ∧
    runProcess envSummaryFail ⟨Input.loc "aGk=" "a.txt", some ⟨true, none, true⟩, none⟩
      = (ProcResp.err 500 "summary model timeout",
         [Effect.aiEmbed (envSummaryFail.textDecode [104, 105]),
          Effect.aiGen summarySystem (jsSlice (envSummaryFail.textDecode [104, 105]) 200000)]) :=
  ⟨rfl, rfl, rfl, rfl, by decide, by decide,
   C2_branch_failure_aborts envSummaryFail ⟨true, none, true⟩
     "summary model timeout" [[1, 2]] "aGk=" "a.txt" none [104, 105]
     rfl rfl rfl rfl (by decide) (by decide) (by decide)⟩

/-! ### C3: the browser resource is leaked on navigation failure. -/

/-- **C3 (code bug).** When rendering is enabled and `page.goto` fails
(e.g. a navigation timeout), the handler's `browser.close()` — which is
only reached after a successful navigation — never runs: the effect trace
contains the launch but no close, and the error surfaces through the
generic `catch` as a 500 carrying the raw message, not as a
`RenderTimeout` error. -/
theorem C3_browser_leaked_on_goto_failure (env : Env) (u e : String)
    (pr : Option Process) (out : Option Output)
    (hgoto : env.browserGoto u = Except.error e) (hne : e ≠ "") :
    runProcess env ⟨Input.url u true, pr, out⟩
      = (ProcResp.err 500 e, [Effect.browserLaunch]) ∧
    Effect.browserClose ∉ (runProcess env ⟨Input.url u true, pr, out⟩).2 := by
  have h1 : runProcess env ⟨Input.url u true, pr, out⟩
      = (ProcResp.err 500 e, [Effect.browserLaunch]) := by
    simp [runProcess, extractText, hgoto, hne]
  exact ⟨h1, by rw [h1]; simp⟩

/-- Closed witness for C3: at a concrete navigation timeout the trace is
exactly `[browserLaunch]` — no release. -/
theorem C3_browser_leaked_witness :
    envBase.browserGoto "https://example.com"
      = Except.error "Navigation timeout of 30000 ms exceeded" ∧
    runProcess envBase ⟨Input.url "https://example.com" true, none, none⟩
      = (ProcResp.err 500 "Navigation timeout of 30000 ms exceeded",
         [Effect.browserLaunch]) ∧
    Effect.browserClose
      ∉ (runProcess envBase ⟨Input.url "https://example.com" true, none, none⟩).2 :=
  ⟨rfl,
   (C3_browser_leaked_on_goto_failure envBase "https://example.com"
      "Navigation timeout of 30000 ms exceeded" none none rfl (by decide)).1,
   (C3_browser_leaked_on_goto_failure envBase "https://example.com"
      "Navigation timeout of 30000 ms exceeded" none none rfl (by decide)).2⟩

/-! ### C5: invalid base64 is answered 500, not 4xx. -/

/-- Counterexample to C5: a `local` request whose `content` is not valid
base64 is answered with status **500** (the `InvalidCharacterError`
thrown by `atob` falls into the generic catch), not with a 4xx
`InvalidEncoding` response. -/
theorem C5_counterexample :
    runProcess envBase ⟨Input.loc "!!!" "a.txt", none, none⟩
      = (ProcResp.err 500 "InvalidCharacterError", []) := by decide

/-- **C5 (amended).** Invalid base64 in a `local` ingestion makes the
request fail through the generic catch as a 5xx response carrying the
decoder's error message (there is no 4xx `InvalidEncoding` code); for
well-formed input the format hint is the supplied filename's extension:
a (case-insensitive) `.pdf` suffix selects PDF extraction, anything else
selects text decoding. -/
theorem C5_encoding_and_extension (env : Env) (content filename : String)
    (pr : Option Process) (out : Option Output) :
    (∀ e, atob content = Except.error e → e ≠ "" →
      runProcess env ⟨Input.loc content filename, pr, out⟩
        = (ProcResp.err 500 e, [])) ∧
    (∀ bs, atob content = Except.ok bs → endsWithPdf filename = true →
      extractText env (Input.loc content filename)
        = (match env.pdfExtract bs with
           | Except.ok t => Step.ok t
           | Except.error e => Step.thrw e, [])) ∧
    (∀ bs, atob content = Except.ok bs → endsWithPdf filename = false →
      extractText env (Input.loc content filename)
        = (Step.ok (env.textDecode bs), [])) := by
  refine ⟨?_, ?_, ?_⟩
  · intro e hdec hne
    simp [runProcess, extractText, hdec, hne]
  · intro bs hdec hpdf
    simp only [extractText, hdec, hpdf, if_true]
    cases env.pdfExtract bs <;> rfl
  · intro bs hdec hpdf
    simp [extractText, hdec, hpdf]

/-- Closed witness for the amended C5: the malformed payload `"!!!"` and
the well-formed payload `"aGk="` with a `.txt` and a `.PDF` filename. -/
theorem C5_encoding_and_extension_witness :
    atob "!!!" = Except.error "InvalidCharacterError" ∧
    runProcess envBase ⟨Input.loc "!!!" "b.txt", none, none⟩
      = (ProcResp.err 500 "InvalidCharacterError", []) ∧
    atob "aGk=" = Except.ok [104, 105] ∧
    endsWithPdf "A.PDF" = true ∧
    endsWithPdf "a.txt" = false ∧
    extractText envBase (Input.loc "aGk=" "a.txt")
      = (Step.ok "hi", []) :=
  ⟨by decide,
   (C5_encoding_and_extension envBase "!!!" "b.txt" none none).1
     "InvalidCharacterError" (by decide) (by decide),
   by decide, by decide, by decide,
   by
     have h := (C5_encoding_and_extension envBase "aGk=" "a.txt" none none).2.2
       [104, 105] (by decide) (by decide)
     rw [h]; rfl⟩

/-! ### Structure of a successful artifact phase. -/

theorem runArtifacts_ok_shape {env : Env} {p : Process} {t : String} {r : ProcResult}
    {effs : List Effect} (h : runArtifacts env (some p) t = (Step.ok r, effs)) :
    r.extracted_text = t ∧ r.rag = ragField p.rag_format t := by
  unfold runArtifacts at h
  cases hee : embPhase env (some p) t with
  | mk st effs1 =>
    rw [hee] at h
    cases st with
    | thrw e => simp at h
    | ret r0 => simp at h
    | ok emb =>
      by_cases hps : (some p).elim false (·.summary)
      · simp only [hps, if_true] at h
        cases hag : env.aiGen summarySystem (jsSlice t 200000) with
        | error e => rw [hag] at h; simp at h
        | ok s =>
          rw [hag, Prod.mk.injEq] at h
          obtain ⟨h1, -⟩ := h
          injection h1 with h1
          subst h1
          exact ⟨rfl, rfl⟩
      · simp only [hps, if_false, Bool.false_eq_true, Prod.mk.injEq] at h
        obtain ⟨h1, -⟩ := h
        injection h1 with h1
        subst h1
        exact ⟨rfl, rfl⟩

/-- **C7.** In a successful `/process` run over extracted text `t`:
`rag_format = "json"` makes the `rag` field the `JSON.stringify` of the
single-field object `{ text: t }`; `rag_format = "markdown"` makes it `t`
prefixed by the `# Extracted Text` heading; any other or absent value
produces no `rag` field at all — and that case is not an error: the
artifact phase still succeeds. -/
theorem C7_rag_payload :
    (∀ (env : Env) (t : String) (p : Process) (r : ProcResult) (effs : List Effect),
      runArtifacts env (some p) t = (Step.ok r, effs) →
      (p.rag_format = some "json" → r.rag = some (stringifyTextObj t)) ∧
      (p.rag_format = some "markdown" → r.rag = some ("# Extracted Text\n\n" ++ t)) ∧
      (p.rag_format ≠ some "json" → p.rag_format ≠ some "markdown" → r.rag = none)) ∧
    (∀ (env : Env) (t : String) (fmt : Option String),
      fmt ≠ some "json" → fmt ≠ some "markdown" →
      runArtifacts env (some ⟨false, fmt, false⟩) t
        = (Step.ok { extracted_text := t }, [])) := by
  have hragnone : ∀ (fmt : Option String) (t : String),
      fmt ≠ some "json" → fmt ≠ some "markdown" → ragField fmt t = none := by
    intro fmt t h1 h2
    cases fmt with
    | none => simp [ragField, truthyStr]
    | some s =>
      have hs1 : s ≠ "json" := fun hh => h1 (by rw [hh])
      have hs2 : s ≠ "markdown" := fun hh => h2 (by rw [hh])
      simp [ragField, truthyStr, hs1, hs2]
  constructor
  · intro env t p r effs h
    have hsh := runArtifacts_ok_shape h
    refine ⟨?_, ?_, ?_⟩
    · intro hf; rw [hsh.2, hf]; simp [ragField, truthyStr]
    · intro hf; rw [hsh.2, hf]; simp [ragField, truthyStr]
    · intro h1 h2; rw [hsh.2]; exact hragnone _ _ h1 h2
  · intro env t fmt h1 h2
    unfold runArtifacts embPhase
    simp [Option.elim, hragnone fmt t h1 h2]

/-- Closed witness for C7: `rag_format:"json"` yields the serialized
object, and an unknown `rag_format:"plain"` yields a successful response
with no `rag` field. -/
theorem C7_rag_payload_witness :
    runArtifacts envBase (some ⟨false, some "json", false⟩) "The sky is blue."
      = (Step.ok { extracted_text := "The sky is blue.",
                   rag := some "\x7b\"text\":\"The sky is blue.\"\x7d" }, []) ∧
    ((some "json" : Option String) = some "json" →
      ({ extracted_text := "The sky is blue.",
         rag := some "\x7b\"text\":\"The sky is blue.\"\x7d" } : ProcResult).rag
        = some (stringifyTextObj "The sky is blue.")) ∧
    ((some "plain" : Option String) ≠ some "json") ∧
    ((some "plain" : Option String) ≠ some "markdown") ∧
    runArtifacts envBase (some ⟨false, some "plain", false⟩) "The sky is blue."
      = (Step.ok { extracted_text := "The sky is blue." }, []) :=
  ⟨by decide,
   ((C7_rag_payload.1 envBase "The sky is blue." ⟨false, some "json", false⟩
      { extracted_text := "The sky is blue.",
        rag := some "\x7b\"text\":\"The sky is blue.\"\x7d" } [] (by decide)).1),
   by decide, by decide,
   C7_rag_payload.2 envBase "The sky is blue." (some "plain") (by decide) (by decide)⟩

/-- **C8.** With the summary directive set, the text submitted to the
generative model is `text.slice(0, 200000)` — at most 200000 characters —
while the `/ask` route submits the full stored text inside its
`Context:` prompt with no truncation. -/
theorem C8_summary_truncated_ask_full :
    (∀ (env : Env) (t : String) (fmt : Option String),
      (runArtifacts env (some ⟨false, fmt, true⟩) t).2
        = [Effect.aiGen summarySystem (jsSlice t 200000)] ∧
      (jsSlice t 200000).length ≤ 200000) ∧
    (∀ (env : Env) (fileId : String) (body : Option BodyObj) (q ctx : String)
        (rest : List String),
      queryTruthy body = some q →
      env.dbSelectText fileId = Except.ok (ctx :: rest) →
      (runAsk env fileId body).2
        = [Effect.dbSelect fileId,
           Effect.aiGen askSystem ("Context:\n" ++ ctx ++ "\n\nQuestion: " ++ q)]) := by
  constructor
  · intro env t fmt
    constructor
    · unfold runArtifacts embPhase
      cases hag : env.aiGen summarySystem (jsSlice t 200000) <;>
        simp [Option.elim, hag]
    · have hlen : (t.data.take 200000).length ≤ 200000 := by
        rw [List.length_take]
        exact Nat.min_le_left _ _
      exact hlen
  · intro env fid body q ctx rest hq hdb
    unfold runAsk
    rw [hq, hdb]
    cases hag : env.aiGen askSystem ("Context:\n" ++ ctx ++ "\n\nQuestion: " ++ q) <;>
      simp [hag]

/-- Closed witness for C8. -/
theorem C8_summary_truncated_ask_full_witness :
    (runArtifacts envBase (some ⟨false, none, true⟩) "hi").2
      = [Effect.aiGen summarySystem (jsSlice "hi" 200000)] ∧
    (jsSlice "hi" 200000).length ≤ 200000 ∧
    queryTruthy (some ⟨some "what?"⟩) = some "what?" ∧
    envTwoMatches.dbSelectText "d1" = Except.ok ["alpha"] ∧
    (runAsk envTwoMatches "d1" (some ⟨some "what?"⟩)).2
      = [Effect.dbSelect "d1",
         Effect.aiGen askSystem ("Context:\n" ++ "alpha" ++ "\n\nQuestion: " ++ "what?")] :=
  ⟨(C8_summary_truncated_ask_full.1 envBase "hi" none).1,
   (C8_summary_truncated_ask_full.1 envBase "hi" none).2,
   by decide, by decide,
   C8_summary_truncated_ask_full.2 envTwoMatches "d1" (some ⟨some "what?"⟩)
     "what?" "alpha" [] (by decide) (by decide)⟩

/-- **C6.** A direct-context question (`POST /:fileId/ask`) with a
truthy query against a fileId with no stored document returns the 404
"Document not found" response, and no generative-model call appears in
the effect trace. -/
theorem C6_ask_nonexistent_404 (env : Env) (fid : String) (body : Option BodyObj)
    (q : String)
    (hq : queryTruthy body = some q)
    (hdb : env.dbSelectText fid = Except.ok []) :
    runAsk env fid body = (AskResp.err 404 "Document not found", [Effect.dbSelect fid]) ∧
    (∀ s u, Effect.aiGen s u ∉ (runAsk env fid body).2) := by
  have h1 : runAsk env fid body
      = (AskResp.err 404 "Document not found", [Effect.dbSelect fid]) := by
    unfold runAsk
    rw [hq, hdb]
  refine ⟨h1, ?_⟩
  intro s u
  rw [h1]
  simp

/-- Closed witness for C6. -/
theorem C6_ask_nonexistent_404_witness :
    queryTruthy (some ⟨some "hello?"⟩) = some "hello?" ∧
    envBase.dbSelectText "nope" = Except.ok [] ∧
    runAsk envBase "nope" (some ⟨some "hello?"⟩)
      = (AskResp.err 404 "Document not found", [Effect.dbSelect "nope"]) ∧
    (∀ s u, Effect.aiGen s u ∉ (runAsk envBase "nope" (some ⟨some "hello?"⟩)).2) :=
  ⟨by decide, rfl,
   (C6_ask_nonexistent_404 envBase "nope" (some ⟨some "hello?"⟩) "hello?" (by decide) rfl).1,
   (C6_ask_nonexistent_404 envBase "nope" (some ⟨some "hello?"⟩) "hello?" (by decide) rfl).2⟩

/-- **C9.** A `/ask` or `/semantic` POST whose body fails to parse
(absorbed into `{}`) or lacks a `query` field is answered 400
"Query not provided" with an empty effect trace: no database or model
call is made and nothing is thrown. -/
theorem C9_missing_query_400 (env : Env) (fid : String) (body : Option BodyObj)
    (h : body = none ∨ queryOf body = none) :
    runAsk env fid body = (AskResp.err 400 "Query not provided", []) ∧
    runSemantic env fid body = (SemResp.err 400 "Query not provided", []) := by
  have hq : queryTruthy body = none := by
    rcases h with h | h
    · subst h; rfl
    · unfold queryTruthy
      rw [h]
  exact ⟨by unfold runAsk; rw [hq], by unfold runSemantic; rw [hq]⟩

/-- Closed witness for C9: an unparseable body. -/
theorem C9_missing_query_400_witness :
    ((none : Option BodyObj) = none ∨ queryOf none = none) ∧
    runAsk envBase "f1" none = (AskResp.err 400 "Query not provided", []) ∧
    runSemantic envBase "f1" none = (SemResp.err 400 "Query not provided", []) :=
  ⟨Or.inl rfl,
   (C9_missing_query_400 envBase "f1" none (Or.inl rfl)).1,
   (C9_missing_query_400 envBase "f1" none (Or.inl rfl)).2⟩

/-! ### C4: scoped similarity rows. -/

theorem resolveChunks_ok (env : Env) (f : VMatch → List String) :
    ∀ ms : List VMatch, (∀ m ∈ ms, env.dbSelectText m.id = Except.ok (f m)) →
    resolveChunks env ms
      = (Except.ok (ms.map fun m => ({ text := (f m).head?.getD "not found" } : Chunk)),
         ms.map fun m => Effect.dbSelect m.id) := by
  intro ms h
  induction ms with
  | nil => simp [resolveChunks]
  | cons m ms ih =>
    have hm := h m (List.mem_cons_self _ _)
    have hrec := ih fun x hx => h x (List.mem_cons_of_mem _ hx)
    simp [resolveChunks, hm, hrec]

/-- **C4.** In a scoped similarity search whose per-match lookups all
complete, the response has exactly one row per index match, in the order
of the match list returned by the index; a match whose document rows are
empty yields the `"not found"` sentinel row instead of being dropped, so
the chunk count always equals the match count. -/
theorem C4_semantic_rows (env : Env) (fid : String) (body : Option BodyObj)
    (q : String) (data : List (List Int)) (sim : Option (List VMatch))
    (f : VMatch → List String)
    (hq : queryTruthy body = some q)
    (hemb : env.aiEmbed q = Except.ok data)
    (hvec : env.vecQuery data.head? 5 fid = Except.ok sim)
    (hdb : ∀ m ∈ sim.getD [], env.dbSelectText m.id = Except.ok (f m)) :
    runSemantic env fid body
      = (SemResp.ok ((sim.getD []).map fun m => { text := (f m).head?.getD "not found" }),
         Effect.aiEmbed q :: Effect.vecQuery fid ::
           ((sim.getD []).map fun m => Effect.dbSelect m.id)) ∧
    ((sim.getD []).map fun m => ({ text := (f m).head?.getD "not found" } : Chunk)).length
      = (sim.getD []).length := by
  have hres := resolveChunks_ok env f (sim.getD []) hdb
  constructor
  · simp only [runSemantic, hq, hemb, hvec, hres]
  · simp

/-- Closed witness for C4: two matches, the second unresolvable, give
two rows in ranking order with the sentinel in the second slot. -/
theorem C4_semantic_rows_witness :
    queryTruthy (some ⟨some "find"⟩) = some "find" ∧
    envTwoMatches.aiEmbed "find" = Except.ok [[1, 2]] ∧
    envTwoMatches.vecQuery [[1, 2]].head? 5 "doc" = Except.ok (some [⟨"d1"⟩, ⟨"gone"⟩]) ∧
    (∀ m ∈ [(⟨"d1"⟩ : VMatch), ⟨"gone"⟩],
      envTwoMatches.dbSelectText m.id
        = Except.ok (if m.id = "d1" then ["alpha"] else [])) ∧
    runSemantic envTwoMatches "doc" (some ⟨some "find"⟩)
      = (SemResp.ok [{ text := "alpha" }, { text := "not found" }],
         [Effect.aiEmbed "find", Effect.vecQuery "doc",
          Effect.dbSelect "d1", Effect.dbSelect "gone"]) :=
  ⟨by decide, rfl, rfl, by decide,
   by
     have h := (C4_semantic_rows envTwoMatches "doc" (some ⟨some "find"⟩) "find"
       [[1, 2]] (some [⟨"d1"⟩, ⟨"gone"⟩])
       (fun m => if m.id = "d1" then ["alpha"] else [])
       (by decide) rfl rfl (by decide)).1
     simpa using h⟩

/-! ### C10: the R2 writes of a successful `/process` run. -/

theorem runArtifacts_no_puts (env : Env) (proc : Option Process) (t : String) :
    r2PutsOf (runArtifacts env proc t).2 = [] := by
  unfold runArtifacts embPhase
  by_cases hpe : proc.elim false (·.embeddings) <;>
    simp only [hpe, if_true, if_false, Bool.false_eq_true]
  · cases hae : env.aiEmbed t with
    | error e => simp [r2PutsOf]
    | ok data =>
      by_cases hps : proc.elim false (·.summary) <;>
        simp only [hps, if_true, if_false, Bool.false_eq_true]
      · cases hag : env.aiGen summarySystem (jsSlice t 200000) <;>
          simp [r2PutsOf]
      · simp [r2PutsOf]
  · by_cases hps : proc.elim false (·.summary) <;>
      simp only [hps, if_true, if_false, Bool.false_eq_true]
    · cases hag : env.aiGen summarySystem (jsSlice t 200000) <;>
        simp [r2PutsOf]
    · simp [r2PutsOf]

theorem persistArtifacts_all_puts (pr : Option Process) (out : Option Output)
    (t : String) (r : ProcResult) :
    r2PutsOf (persistArtifacts pr out t r) = persistArtifacts pr out t r := by
  unfold persistArtifacts r2PutsOf
  cases hr : r.rag <;> cases hs : r.summary <;> cases he : r.embedding <;>
    simp [List.filter_append, apply_ite (List.filter _)]

/-- Counterexample to C10: when the summary model returns the empty
string, the response carries the produced artifact (`summary: ""`) but
no `output.summary.txt` object is written — the write is guarded by JS
truthiness, not by artifact production. -/
theorem C10_counterexample :
    (runProcess envSummaryEmpty
        ⟨Input.loc "aGk=" "a.txt", some ⟨false, none, true⟩, none⟩).1
      = ProcResp.ok { extracted_text := "hi", summary := some "" } ∧
    Effect.r2Put "output.summary.txt" ""
      ∉ (runProcess envSummaryEmpty
          ⟨Input.loc "aGk=" "a.txt", some ⟨false, none, true⟩, none⟩).2 := by
  constructor
  · decide
  · decide

/-- **C10 (amended).** Every successful `/process` request over a
`local` input writes the extracted text to `${prefix}.txt` (prefix =
`output.key || "output"`), even with no `process` and no `output` given;
`${prefix}.rag.{json|md}`, `${prefix}.summary.txt` and
`${prefix}.embedding.json` are written exactly when the corresponding
response field is present *and truthy* (an empty summary string is
reported but not persisted; an embedding array, even empty, is always
persisted); and the run performs no other object-store write. -/
theorem C10_writes (env : Env) (content filename : String) (bs : List Nat)
    (pr : Option Process) (out : Option Output) (r : ProcResult) (effs2 : List Effect)
    (hb : atob content = Except.ok bs) (hpdf : endsWithPdf filename = false)
    (hart : runArtifacts env pr (env.textDecode bs) = (Step.ok r, effs2)) :
    runProcess env ⟨Input.loc content filename, pr, out⟩
      = (ProcResp.ok r, effs2 ++ persistArtifacts pr out (env.textDecode bs) r) ∧
    r2PutsOf (runProcess env ⟨Input.loc content filename, pr, out⟩).2
      = Effect.r2Put (keyOrDefault out ++ ".txt") (env.textDecode bs)
        :: ((match r.rag with
             | some rag =>
               if rag ≠ "" then
                 [Effect.r2Put (keyOrDefault out ++ ".rag." ++
                    (if pr.bind (·.rag_format) = some "json" then "json" else "md")) rag]
               else []
             | none => [])
          ++ (match r.summary with
              | some s =>
                if s ≠ "" then [Effect.r2Put (keyOrDefault out ++ ".summary.txt") s]
                else []
              | none => [])
          ++ (match r.embedding with
              | some v =>
                [Effect.r2Put (keyOrDefault out ++ ".embedding.json") (stringifyVec v)]
              | none => [])) := by
  have h1 : runProcess env ⟨Input.loc content filename, pr, out⟩
      = (ProcResp.ok r, effs2 ++ persistArtifacts pr out (env.textDecode bs) r) := by
    simp [runProcess, extractText, hb, hpdf, hart]
  refine ⟨h1, ?_⟩
  rw [h1]
  have h2 : r2PutsOf effs2 = [] := by
    have h3 := runArtifacts_no_puts env pr (env.textDecode bs)
    rw [hart] at h3
    exact h3
  show r2PutsOf (effs2 ++ persistArtifacts pr out (env.textDecode bs) r) = _
  rw [r2PutsOf, List.filter_append]
  show r2PutsOf effs2 ++ r2PutsOf (persistArtifacts pr out (env.textDecode bs) r) = _
  rw [h2, persistArtifacts_all_puts, List.nil_append]
  rfl

/-- Closed witness for the amended C10: a request with no directives and
no output destination still writes `output.txt`, and nothing else. -/
theorem C10_writes_witness :
    atob "aGk=" = Except.ok [104, 105] ∧
    endsWithPdf "a.txt" = false ∧
    runArtifacts envBase none (envBase.textDecode [104, 105])
      = (Step.ok { extracted_text := "hi" }, []) ∧
    runProcess envBase ⟨Input.loc "aGk=" "a.txt", none, none⟩
      = (ProcResp.ok { extracted_text := "hi" },
         [] ++ persistArtifacts none none (envBase.textDecode [104, 105])
           { extracted_text := "hi" }) ∧
    r2PutsOf (runProcess envBase ⟨Input.loc "aGk=" "a.txt", none, none⟩).2
      = [Effect.r2Put "output.txt" "hi"] :=
  ⟨by decide, by decide, by decide,
   (C10_writes envBase "aGk=" "a.txt" [104, 105] none none
      { extracted_text := "hi" } [] (by decide) (by decide) (by decide)).1,
   by
     have h := (C10_writes envBase "aGk=" "a.txt" [104, 105] none none
       { extracted_text := "hi" } [] (by decide) (by decide) (by decide)).2
     simpa using h⟩
